import Mathlib

/-!
Verification of `depr/savers.py` from the friends-vk-api repository.

The Python module normalizes batches of VK profile records (`fill_gaps`,
`clean_data`, `bdate_to_iso`) and appends them to a report file in `.csv`,
`.tsv` or `.json` format (`save_as_sv`, `save_as_json`, `save`,
`create_file`).

The shallow embedding below models:
  * Python values flowing through the module as the inductive `Value`
    (`None`, `str`, `int`, `list`, `dict`); Python dicts are insertion-ordered
    association lists, exactly as CPython preserves insertion order;
  * Python exceptions as `PyErr` (`TypeError`, `ValueError`, `KeyError`);
  * in-place mutation as explicit state passing: a function that mutates
    `data["items"]` is modelled as returning the list state after the call
    together with the exception it raised, if any;
  * `datetime.strptime` for the two format strings `"%d.%m.%Y"` and `"%d.%m"`
    used by the module, following CPython `_strptime`: the directive regexes
    `3[01]|[12]\d|0[1-9]|[1-9]` for `%d`, `1[0-2]|0[1-9]|[1-9]` for `%m` and
    `\d\d\d\d` for `%Y`, alternatives tried in order with backtracking, the
    `unconverted data remains` check, the calendar-validity check of the
    `datetime` constructor, and the default year 1900 when `%Y` is absent;
  * the destination file as its byte content (a `String`), with
    `json.dumps(-, indent=2)` and the `csv` writer modelled byte for byte.
-/

/-- A Python value as used by the module: `None`, `str`, `int`, `list`,
`dict` (insertion-ordered association list, as in CPython). Booleans and
floats do not occur in the data handled by `savers.py` and are omitted. -/
inductive Value where
  | vnone
  | vstr (s : String)
  | vint (n : Int)
  | vlist (xs : List Value)
  | vobj (fields : List (String × Value))

/-- The Python exceptions the module can raise. -/
inductive PyErr where
  | typeError
  | valueError
  | keyError
deriving DecidableEq

/-- Key membership test on a Python dict (`k in d`). -/
def hasKey (fs : List (String × Value)) (k : String) : Bool :=
  fs.any (fun p => p.1 == k)

/-- Lookup on a Python dict (`d[k]` when the key is present). -/
def getKey (fs : List (String × Value)) (k : String) : Option Value :=
  (fs.find? (fun p => p.1 == k)).map (fun p => p.2)

/-- Assignment `d[k] = v` on a Python dict: an existing key keeps its
position, a new key is appended at the end (CPython insertion order). -/
def setKey (fs : List (String × Value)) (k : String) (v : Value) :
    List (String × Value) :=
  if hasKey fs k then
    fs.map (fun p => if p.1 == k then (k, v) else p)
  else
    fs ++ [(k, v)]

/-- Python subscript `x["k"]`: a dict yields the value or raises `KeyError`;
any non-dict (`None`, `str`, `int`, `list`) raises `TypeError`, as CPython
does for string subscripts on those types. -/
def subscr (v : Value) (k : String) : Except PyErr Value :=
  match v with
  | .vobj fs =>
    match getKey fs k with
    | some x => .ok x
    | none => .error .keyError
  | _ => .error .typeError

/-! ### `datetime.strptime` for the two module formats

CPython `_strptime` turns a format string into a regex, finds its first
match with ordered-alternative backtracking, raises `ValueError` when no
match exists or when unconverted characters remain, and finally lets the
`datetime` constructor validate the calendar date.  The `%d` directive is
the regex `3[01]|[12]\d|0[1-9]|[1-9]`, `%m` is `1[0-2]|0[1-9]|[1-9]`, `%Y`
is `\d\d\d\d`, and a missing `%Y` defaults to the year 1900. -/
/-- Numeric value of a decimal digit character. -/
def dval (c : Char) : Nat := c.toNat - 48

/-- Decimal digit test. -/
def isDig (c : Char) : Bool := '0' ≤ c && c ≤ '9'

/-- The candidate matches of the `%d` regex `3[01]|[12]\d|0[1-9]|[1-9]` at
the head of the input, in the order the alternatives are tried. -/
def dayCands : List Char → List (Nat × List Char)
  | c1 :: c2 :: rest =>
    (if c1 = '3' && (c2 = '0' || c2 = '1') then [(30 + dval c2, rest)] else []) ++
    (if (c1 = '1' || c1 = '2') && isDig c2 then [(10 * dval c1 + dval c2, rest)] else []) ++
    (if c1 = '0' && ('1' ≤ c2 && c2 ≤ '9') then [(dval c2, rest)] else []) ++
    (if '1' ≤ c1 && c1 ≤ '9' then [(dval c1, c2 :: rest)] else [])
  | [c1] => if '1' ≤ c1 && c1 ≤ '9' then [(dval c1, [])] else []
  | [] => []

/-- The candidate matches of the `%m` regex `1[0-2]|0[1-9]|[1-9]` at the
head of the input, in the order the alternatives are tried. -/
def monthCands : List Char → List (Nat × List Char)
  | c1 :: c2 :: rest =>
    (if c1 = '1' && ('0' ≤ c2 && c2 ≤ '2') then [(10 + dval c2, rest)] else []) ++
    (if c1 = '0' && ('1' ≤ c2 && c2 ≤ '9') then [(dval c2, rest)] else []) ++
    (if '1' ≤ c1 && c1 ≤ '9' then [(dval c1, c2 :: rest)] else [])
  | [c1] => if '1' ≤ c1 && c1 ≤ '9' then [(dval c1, [])] else []
  | [] => []

/-- The `%Y` regex `\d\d\d\d`: exactly four digits. -/
def year4 : List Char → Option (Nat × List Char)
  | a :: b :: c :: d :: rest =>
    if isDig a && isDig b && isDig c && isDig d then
      some (((dval a * 10 + dval b) * 10 + dval c) * 10 + dval d, rest)
    else none
  | _ => none

/-- First match of the `%d.%m.%Y` pattern (value triple and unconverted
rest), alternatives tried in regex order with backtracking. -/
def matchDMY (cs : List Char) : Option (Nat × Nat × Nat × List Char) :=
  (dayCands cs).findSome? fun dc =>
    match dc.2 with
    | '.' :: r2 =>
      (monthCands r2).findSome? fun mc =>
        match mc.2 with
        | '.' :: r4 =>
          match year4 r4 with
          | some (y, r5) => some (dc.1, mc.1, y, r5)
          | none => none
        | _ => none
    | _ => none

/-- First match of the `%d.%m` pattern (value pair and unconverted rest). -/
def matchDM (cs : List Char) : Option (Nat × Nat × List Char) :=
  (dayCands cs).findSome? fun dc =>
    match dc.2 with
    | '.' :: r2 => (monthCands r2).findSome? fun mc => some (dc.1, mc.1, mc.2)
    | _ => none

/-- Gregorian leap-year rule, as `datetime` uses. -/
def isLeap (y : Nat) : Bool := (y % 4 == 0 && y % 100 != 0) || y % 400 == 0

/-- Days in a month of a given year. -/
def daysInMonth (y m : Nat) : Nat :=
  if m = 2 then (if isLeap y then 29 else 28)
  else if m = 4 || m = 6 || m = 9 || m = 11 then 30
  else 31

/-- Calendar validity as checked by the `datetime` constructor (the regexes
already bound the day to 1..31, the month to 1..12 and the year to four
digits; `datetime.MINYEAR` is 1). -/
def validDate (y m d : Nat) : Bool := 1 ≤ y && d ≤ daysInMonth y m

/-- Whether the whole string matches `%d.%m.%Y` and what it parses to:
first pattern match, no unconverted rest, valid calendar date. -/
def strptimeDMY (s : String) : Option (Nat × Nat × Nat) :=
  match matchDMY s.data with
  | some (d, m, y, rest) => if rest = [] && validDate y m d then some (d, m, y) else none
  | none => none

/-- Whether the whole string matches `%d.%m` and what it parses to; the
defaulted year is 1900, so the calendar check is against 1900. -/
def strptimeDM (s : String) : Option (Nat × Nat) :=
  match matchDM s.data with
  | some (d, m, rest) => if rest = [] && validDate 1900 m d then some (d, m) else none
  | none => none

/-- Full-string match test for the `%d.%m.%Y` pattern alone (regex match
with nothing unconverted, before calendar validation). -/
def patDMY (s : String) : Bool :=
  match matchDMY s.data with
  | some (_, _, _, rest) => rest.isEmpty
  | none => false

/-- Full-string match test for the `%d.%m` pattern alone. -/
def patDM (s : String) : Bool :=
  match matchDM s.data with
  | some (_, _, rest) => rest.isEmpty
  | none => false

/-- Zero-padded two-digit rendering, as `isoformat` emits. -/
def pad2 (n : Nat) : String := if n < 10 then "0" ++ toString n else toString n

/-- Zero-padded four-digit year, as `isoformat` emits. -/
def pad4 (n : Nat) : String :=
  if n < 10 then "000" ++ toString n
  else if n < 100 then "00" ++ toString n
  else if n < 1000 then "0" ++ toString n
  else toString n

/-- The date part of `datetime(y, m, d).isoformat()`. -/
def isoOfYMD (y m d : Nat) : String := pad4 y ++ "-" ++ pad2 m ++ "-" ++ pad2 d

/-- `bdate_to_iso` from `savers.py`: `None` passes through; a string is
parsed first as `%d.%m.%Y` and, when that raises `ValueError`, as `%d.%m`
(whose `ValueError` propagates); `datetime.strptime` defaults the year to
1900 when `%Y` is absent, so the day-month-only branch emits `1900-MM-DD`.
A non-string, non-`None` argument makes `strptime` raise `TypeError`,
which the `except ValueError` clause does not catch. -/
def bdate_to_iso (bdate : Value) : Except PyErr Value :=
  match bdate with
  | .vnone => .ok .vnone
  | .vstr s =>
    match strptimeDMY s with
    | some (d, m, y) => .ok (.vstr (isoOfYMD y m d))
    | none =>
      match strptimeDM s with
      | some (d, m) => .ok (.vstr (isoOfYMD 1900 m d))
      | none => .error .valueError
  | _ => .error .typeError

/-! ### The normalizer: `fill_gaps` and `clean_data`

Both functions mutate `data["items"]` in place in the source.  The
embedding threads the list state explicitly: each run function returns the
exception raised (if any) together with the state of the caller's
`data["items"]` when the call ends, mirroring which assignments had
already happened when an exception escaped. -/
/-- One `fill_gaps` field rewrite for `city` or `country`:
`friend[k] = None` when the key is absent, otherwise
`friend[k] = friend[k]["title"]` (whose subscript can raise). -/
def fieldTitleStep (fs : List (String × Value)) (k : String) :
    Except PyErr (List (String × Value)) :=
  if hasKey fs k then
    match getKey fs k with
    | some v => (subscr v "title").map (setKey fs k)
    | none => .error .keyError
  else .ok (setKey fs k .vnone)

/-- The `fill_gaps` rewrite of `bdate`: `None` when absent, otherwise
`bdate_to_iso(friend["bdate"])` (which can raise). -/
def bdateStep (fs : List (String × Value)) : Except PyErr (List (String × Value)) :=
  if hasKey fs "bdate" then
    match getKey fs "bdate" with
    | some v => (bdate_to_iso v).map (setKey fs "bdate")
    | none => .error .keyError
  else .ok (setKey fs "bdate" .vnone)

/-- The `fill_gaps` rewrite of `sex`: `None` when absent, otherwise
`"Female"` for the integer 1 and `"Male"` for anything else. -/
def sexStep (fs : List (String × Value)) : List (String × Value) :=
  if hasKey fs "sex" then
    match getKey fs "sex" with
    | some (.vint 1) => setKey fs "sex" (.vstr "Female")
    | some _ => setKey fs "sex" (.vstr "Male")
    | none => fs
  else setKey fs "sex" .vnone

/-- The `fill_gaps` loop body for one friend record, with the state the
record is left in when a step raises (assignments happen in source order:
`city`, `country`, `bdate`, `sex`).  A non-dict record raises `TypeError`
at its first subscript or item assignment. -/
def fillGapsFriend (f : Value) : Option PyErr × Value :=
  match f with
  | .vobj fs =>
    match fieldTitleStep fs "city" with
    | .error e => (some e, .vobj fs)
    | .ok fs1 =>
      match fieldTitleStep fs1 "country" with
      | .error e => (some e, .vobj fs1)
      | .ok fs2 =>
        match bdateStep fs2 with
        | .error e => (some e, .vobj fs2)
        | .ok fs3 => (none, .vobj (sexStep fs3))
  | _ => (some .typeError, f)

/-- `fill_gaps` from `savers.py`, over the `data["items"]` list: rewrites
each record in place in order; an exception stops the loop and leaves the
earlier records rewritten, the current record partially rewritten and the
later records untouched. -/
def fill_gaps : List Value → Option PyErr × List Value
  | [] => (none, [])
  | f :: rest =>
    match fillGapsFriend f with
    | (some e, f') => (some e, f' :: rest)
    | (none, f') =>
      match fill_gaps rest with
      | (e, rest') => (e, f' :: rest')

/-- The conditional `friend[k]["title"] if k in friend else None` from the
`clean_data` loop body (evaluated on the record as `fill_gaps` left it). -/
def condTitle (fs : List (String × Value)) (k : String) : Except PyErr Value :=
  if hasKey fs k then
    match getKey fs k with
    | some v => subscr v "title"
    | none => .error .keyError
  else .ok .vnone

/-- The conditional `friend[k] if k in friend else None` from the
`clean_data` loop body. -/
def condPlain (fs : List (String × Value)) (k : String) : Value :=
  if hasKey fs k then
    match getKey fs k with
    | some v => v
    | none => .vnone
  else .vnone

/-- The `OrderedDict` built for one record by the `clean_data` loop; the
six entries are evaluated in source order, so the first raising entry
determines the exception. -/
def cleanFriend (f : Value) : Except PyErr Value :=
  match f with
  | .vobj fs => do
    let fn ← subscr (.vobj fs) "first_name"
    let ln ← subscr (.vobj fs) "last_name"
    let co ← condTitle fs "country"
    let ci ← condTitle fs "city"
    Except.ok (.vobj [("first_name", fn), ("last_name", ln), ("country", co),
      ("city", ci), ("bdate", condPlain fs "bdate"), ("sex", condPlain fs "sex")])
  | _ => .error .typeError

/-- The `clean_data` replacement loop `data["items"][i] = OrderedDict(...)`:
records are replaced one by one; an exception stops the loop, leaving the
earlier records replaced and the rest as `fill_gaps` produced them. -/
def cleanLoop : List Value → Option PyErr × List Value
  | [] => (none, [])
  | f :: rest =>
    match cleanFriend f with
    | .error e => (some e, f :: rest)
    | .ok f' =>
      match cleanLoop rest with
      | (e, rest') => (e, f' :: rest')

/-- `clean_data` from `savers.py` over `data["items"]`: runs `fill_gaps`,
then the replacement loop.  The first component is the exception that
escaped (if any); the second is the state of the caller's list when the
call ends -- on normal return it is also the `items` of the returned
`data`, since the source mutates and returns the same object. -/
def clean_data (items : List Value) : Option PyErr × List Value :=
  match fill_gaps items with
  | (some e, items') => (some e, items')
  | (none, items') => cleanLoop items'

/-! ### `json.dumps(x, indent=2)`

With `indent=2` and default separators, CPython emits `[]`/`{}` for empty
containers and otherwise puts each item on its own line, prefixed by the
current indent, separated by `,`, with the closing bracket on a fresh line
at the enclosing indent.  `ensure_ascii=True` escapes every character
outside `0x20..0x7e` (and `"` and `\`) using the short escapes or
`\uXXXX`, with surrogate pairs beyond the BMP. -/
/-- `2*n` spaces of indentation. -/
def ind (n : Nat) : String := String.mk (List.replicate (2 * n) ' ')

/-- Lowercase hex digit. -/
def hexDig (n : Nat) : Char := if n < 10 then Char.ofNat (48 + n) else Char.ofNat (87 + n)

/-- Four lowercase hex digits, as in a `\uXXXX` escape. -/
def hex4 (n : Nat) : List Char :=
  [hexDig (n / 4096 % 16), hexDig (n / 256 % 16), hexDig (n / 16 % 16), hexDig (n % 16)]

/-- The `\uXXXX` escape of a character, as a surrogate pair above the BMP. -/
def uEscape (n : Nat) : List Char :=
  if n < 0x10000 then '\\' :: 'u' :: hex4 n
  else
    ('\\' :: 'u' :: hex4 (0xd800 + (n - 0x10000) / 0x400)) ++
    ('\\' :: 'u' :: hex4 (0xdc00 + (n - 0x10000) % 0x400))

/-- `json.dumps` escaping of one character (`ensure_ascii=True`): printable
ASCII other than `"` and `\` passes through, the two-character escapes
cover `\b \t \n \f \r \" \\`, everything else becomes `\uXXXX`. -/
def escChar (c : Char) : List Char :=
  if c = '"' then ['\\', '"']
  else if c = '\\' then ['\\', '\\']
  else if c = '\n' then ['\\', 'n']
  else if c = '\r' then ['\\', 'r']
  else if c = '\t' then ['\\', 't']
  else if c.toNat = 8 then ['\\', 'b']
  else if c.toNat = 12 then ['\\', 'f']
  else if 0x20 ≤ c.toNat && c.toNat ≤ 0x7e then [c]
  else uEscape c.toNat

/-- A JSON string literal for `s`, escaped as `json.dumps` does. -/
def quoteStr (s : String) : String :=
  "\"" ++ String.mk (s.data.foldr (fun c acc => escChar c ++ acc) []) ++ "\""

mutual
/-- `json.dumps` of one value at indent level `lvl` (`indent=2`). -/
def dumpsV : Nat → Value → String
  | _, .vnone => "null"
  | _, .vstr s => quoteStr s
  | _, .vint n => toString n
  | _, .vlist [] => "[]"
  | lvl, .vlist (x :: xs) =>
    "[\n" ++ ind (lvl + 1) ++ dumpsV (lvl + 1) x ++ dumpsL (lvl + 1) xs ++
      "\n" ++ ind lvl ++ "]"
  | _, .vobj [] => "\x7b\x7d"
  | lvl, .vobj (p :: fs) =>
    "\x7b\n" ++ ind (lvl + 1) ++ quoteStr p.1 ++ ": " ++ dumpsV (lvl + 1) p.2 ++
      dumpsF (lvl + 1) fs ++ "\n" ++ ind lvl ++ "\x7d"
/-- The remaining items of a list being emitted at indent level `lvl`. -/
def dumpsL : Nat → List Value → String
  | _, [] => ""
  | lvl, x :: xs => ",\n" ++ ind lvl ++ dumpsV lvl x ++ dumpsL lvl xs
/-- The remaining members of an object being emitted at indent level `lvl`. -/
def dumpsF : Nat → List (String × Value) → String
  | _, [] => ""
  | lvl, p :: fs => ",\n" ++ ind lvl ++ quoteStr p.1 ++ ": " ++ dumpsV lvl p.2 ++ dumpsF lvl fs
end

/-- `json.dumps(v, indent=2)`. -/
def dumps (v : Value) : String := dumpsV 0 v

/-- `save_as_json` from `savers.py`: runs `clean_data`, then either dumps
`[data["items"]]` into the empty file, or seeks to the end, truncates the
final byte, and writes `' , '`, the dump of `data["items"]`, and `']'`.
Returns the exception that escaped (if any) and the file bytes after the
call; an escaping exception leaves the file untouched because `clean_data`
runs before the file is opened. -/
def save_as_json (items : List Value) (file : String) : Option PyErr × String :=
  match clean_data items with
  | (some e, _) => (some e, file)
  | (none, items') =>
    if file.length = 0 then
      (none, dumps (.vlist [.vlist items']))
    else
      (none, String.mk file.data.dropLast ++ " , " ++ dumps (.vlist items') ++ "]")

/-! ### The `csv` writer and `save_as_sv`

`csv.writer(f, delimiter=d)` with the default dialect writes each row as
the fields joined by `d` and terminated by `"\r\n"`; `None` becomes the
empty field, any other non-string is passed through `str()`, and a field
containing the delimiter, the quote character or a line break is wrapped
in double quotes with embedded quotes doubled (`QUOTE_MINIMAL`). -/
/-- Escapes used by `repr` of a Python `str` for the characters that can
occur here; CPython additionally switches the quote style when the string
itself contains a single quote, which the data handled by the module
never exercises. -/
def reprEsc (c : Char) : List Char :=
  if c = '\\' then ['\\', '\\']
  else if c = '\'' then ['\\', '\'']
  else if c = '\n' then ['\\', 'n']
  else if c = '\r' then ['\\', 'r']
  else if c = '\t' then ['\\', 't']
  else [c]

/-- Python `repr` of a string. -/
def strRepr (s : String) : String :=
  "'" ++ String.mk (s.data.foldr (fun c acc => reprEsc c ++ acc) []) ++ "'"

mutual
/-- Python `repr` of a value, as `str()` falls back to for lists and
dicts written by the `csv` writer. -/
def pyRepr : Value → String
  | .vnone => "None"
  | .vint n => toString n
  | .vstr s => strRepr s
  | .vlist xs => "[" ++ pyReprL xs ++ "]"
  | .vobj fs => "\x7b" ++ pyReprF fs ++ "\x7d"
/-- Comma-joined `repr` of list items. -/
def pyReprL : List Value → String
  | [] => ""
  | [x] => pyRepr x
  | x :: y :: xs => pyRepr x ++ ", " ++ pyReprL (y :: xs)
/-- Comma-joined `repr` of dict members. -/
def pyReprF : List (String × Value) → String
  | [] => ""
  | [p] => strRepr p.1 ++ ": " ++ pyRepr p.2
  | p :: q :: fs => strRepr p.1 ++ ": " ++ pyRepr p.2 ++ ", " ++ pyReprF (q :: fs)
end

/-- How the `csv` writer turns one value into field text: `None` becomes
the empty field, strings pass through, everything else goes through
`str()`. -/
def fieldText : Value → String
  | .vnone => ""
  | .vstr s => s
  | .vint n => toString n
  | v => pyRepr v

/-- `QUOTE_MINIMAL`: quote a field that contains the delimiter, a double
quote or a line break, doubling embedded double quotes. -/
def csvQuote (d : Char) (s : String) : String :=
  if s.data.any (fun c => c = d || c = '"' || c = '\r' || c = '\n') then
    "\"" ++ String.mk (s.data.foldr (fun c acc =>
      if c = '"' then '"' :: '"' :: acc else c :: acc) []) ++ "\""
  else s

/-- One row as `csv.writer.writerow` emits it: quoted fields joined by the
delimiter, terminated by `"\r\n"`. -/
def rowOut (d : Char) (cells : List String) : String :=
  String.intercalate (String.mk [d]) (cells.map (csvQuote d)) ++ "\r\n"

/-- The row written for one cleaned record by the `save_as_sv` loop: the
six subscripts in source order (each could raise `KeyError` on a record
without the key, though `clean_data` always builds all six). -/
def rowBytes (d : Char) (f : Value) : Except PyErr String := do
  let fn ← subscr f "first_name"
  let ln ← subscr f "last_name"
  let co ← subscr f "country"
  let ci ← subscr f "city"
  let bd ← subscr f "bdate"
  let sx ← subscr f "sex"
  Except.ok (rowOut d [fieldText fn, fieldText ln, fieldText co, fieldText ci,
    fieldText bd, fieldText sx])

/-- The `save_as_sv` row loop: writes rows in order; an exception stops
the loop, keeping the rows already written. -/
def writeRows (d : Char) : List Value → Option PyErr × String
  | [] => (none, "")
  | f :: rest =>
    match rowBytes d f with
    | .error e => (some e, "")
    | .ok s =>
      match writeRows d rest with
      | (e, w) => (e, s ++ w)

/-- The `sv_delimiters` dict: extension to delimiter; a missing extension
raises `KeyError` at the lookup. -/
def sv_delimiters (ext : String) : Option Char :=
  if ext = ".csv" then some ','
  else if ext = ".tsv" then some '\t'
  else none

/-- `save_as_sv` from `savers.py`, over the extension of the path and the
file bytes: opens the file for appending, builds the writer (the
delimiter lookup raises `KeyError` for an unknown extension), runs
`clean_data`, then writes one row per record.  Returns the escaped
exception (if any) and the file bytes after the call. -/
def save_as_sv (items : List Value) (ext : String) (file : String) :
    Option PyErr × String :=
  match sv_delimiters ext with
  | none => (some .keyError, file)
  | some d =>
    match clean_data items with
    | (some e, _) => (some e, file)
    | (none, items') =>
      match writeRows d items' with
      | (e, w) => (e, file ++ w)

/-- `save` from `savers.py`: dispatches on the extension, `.json` to
`save_as_json` and everything else to `save_as_sv`. -/
def save (items : List Value) (ext : String) (file : String) :
    Option PyErr × String :=
  if ext = ".json" then save_as_json items file else save_as_sv items ext file

/-- The header row `create_file` writes for `.csv` and `.tsv` files. -/
def headerRow (d : Char) : String :=
  rowOut d ["First Name", "Last Name", "Country", "City", "Birthdate", "Sex"]

/-- The initial file content `create_file` leaves for a given extension:
a header row for the text formats, an empty file for `.json`. -/
def create_file (ext : String) : String :=
  if ext = ".csv" then headerRow ','
  else if ext = ".tsv" then headerRow '\t'
  else ""

/-! ### A JSON reader

Used to state what the destination file parses as.  It follows the JSON
value grammar over the constructs that can reach the file (`null`,
strings with escapes, integers, arrays, objects, whitespace); the fuel
argument only makes the recursion structural and the top-level entry
always supplies more than the input length, which every recursive call
strictly consumes. -/
/-- Skip JSON whitespace. -/
def skipWs : List Char → List Char
  | c :: cs => if c = ' ' || c = '\n' || c = '\t' || c = '\r' then skipWs cs else c :: cs
  | [] => []

/-- Hex digit value. -/
def hexVal (c : Char) : Option Nat :=
  if '0' ≤ c && c ≤ '9' then some (c.toNat - 48)
  else if 'a' ≤ c && c ≤ 'f' then some (c.toNat - 87)
  else if 'A' ≤ c && c ≤ 'F' then some (c.toNat - 55)
  else none

/-- Value of a `\uXXXX` escape body. -/
def hexQuad (a b c d : Char) : Option Nat := do
  let va ← hexVal a
  let vb ← hexVal b
  let vc ← hexVal c
  let vd ← hexVal d
  pure (((va * 16 + vb) * 16 + vc) * 16 + vd)

/-- String body after the opening quote, structural on the input.  A
high/low surrogate escape pair recombines into one character; a lone
surrogate is rejected (Lean strings cannot carry one). -/
def parseStrBody (acc : List Char) : List Char → Option (String × List Char)
  | '"' :: rest => some (String.mk acc.reverse, rest)
  | '\\' :: 'u' :: a :: b :: c :: d :: rest =>
    (match hexQuad a b c d with
     | some n =>
       if n < 0xd800 || 0xe000 ≤ n then parseStrBody (Char.ofNat n :: acc) rest
       else if n < 0xdc00 then
         match rest with
         | '\\' :: 'u' :: a2 :: b2 :: c2 :: d2 :: rest2 =>
           (match hexQuad a2 b2 c2 d2 with
            | some m =>
              if 0xdc00 ≤ m && m < 0xe000 then
                parseStrBody
                  (Char.ofNat (0x10000 + (n - 0xd800) * 0x400 + (m - 0xdc00)) :: acc) rest2
              else none
            | none => none)
         | _ => none
       else none
     | none => none)
  | '\\' :: e :: rest =>
    (match e with
     | '"' => parseStrBody ('"' :: acc) rest
     | '\\' => parseStrBody ('\\' :: acc) rest
     | '/' => parseStrBody ('/' :: acc) rest
     | 'n' => parseStrBody ('\n' :: acc) rest
     | 'r' => parseStrBody ('\r' :: acc) rest
     | 't' => parseStrBody ('\t' :: acc) rest
     | 'b' => parseStrBody (Char.ofNat 8 :: acc) rest
     | 'f' => parseStrBody (Char.ofNat 12 :: acc) rest
     | _ => none)
  | c :: rest => if c.toNat < 0x20 then none else parseStrBody (c :: acc) rest
  | [] => none

/-- Leading decimal digits and the rest. -/
def takeDigits : List Char → List Char × List Char
  | c :: cs =>
    if isDig c then
      match takeDigits cs with
      | (ds, r) => (c :: ds, r)
    else ([], c :: cs)
  | [] => ([], [])

/-- Digit characters to a natural number. -/
def digitsToNat (ds : List Char) : Nat := ds.foldl (fun acc c => acc * 10 + dval c) 0

/-- An integer literal (the only numbers the module ever writes). -/
def parseIntLit : List Char → Option (Int × List Char)
  | '-' :: cs =>
    (match takeDigits cs with
     | ([], _) => none
     | (ds, r) => some (-(digitsToNat ds : Int), r))
  | cs =>
    match takeDigits cs with
    | ([], _) => none
    | (ds, r) => some ((digitsToNat ds : Int), r)

mutual
/-- Parse one JSON value from the input (after skipping whitespace). -/
def parseVal : Nat → List Char → Option (Value × List Char)
  | 0, _ => none
  | fuel + 1, cs =>
    match skipWs cs with
    | '[' :: rest =>
      (match skipWs rest with
       | ']' :: rest2 => some (.vlist [], rest2)
       | rest2 =>
         match parseVal fuel rest2 with
         | some (v, r) =>
           (match parseListTail fuel r with
            | some (vs, r2) => some (.vlist (v :: vs), r2)
            | none => none)
         | none => none)
    | '{' :: rest =>
      (match skipWs rest with
       | '}' :: rest2 => some (.vobj [], rest2)
       | '"' :: rest2 =>
         (match parseStrBody [] rest2 with
          | some (k, r) =>
            (match skipWs r with
             | ':' :: r2 =>
               (match parseVal fuel r2 with
                | some (v, r3) =>
                  (match parseObjTail fuel r3 with
                   | some (fs, r4) => some (.vobj ((k, v) :: fs), r4)
                   | none => none)
                | none => none)
             | _ => none)
          | none => none)
       | _ => none)
    | '"' :: rest =>
      (match parseStrBody [] rest with
       | some (s, r) => some (.vstr s, r)
       | none => none)
    | 'n' :: 'u' :: 'l' :: 'l' :: rest => some (.vnone, rest)
    | cs2 =>
      match parseIntLit cs2 with
      | some (n, r) => some (.vint n, r)
      | none => none
/-- Parse the remaining elements of an array after the first. -/
def parseListTail : Nat → List Char → Option (List Value × List Char)
  | 0, _ => none
  | fuel + 1, cs =>
    match skipWs cs with
    | ']' :: rest => some ([], rest)
    | ',' :: rest =>
      (match parseVal fuel rest with
       | some (v, r) =>
         (match parseListTail fuel r with
          | some (vs, r2) => some (v :: vs, r2)
          | none => none)
       | none => none)
    | _ => none
/-- Parse the remaining members of an object after the first. -/
def parseObjTail : Nat → List Char → Option (List (String × Value) × List Char)
  | 0, _ => none
  | fuel + 1, cs =>
    match skipWs cs with
    | '}' :: rest => some ([], rest)
    | ',' :: rest =>
      (match skipWs rest with
       | '"' :: rest2 =>
         (match parseStrBody [] rest2 with
          | some (k, r) =>
            (match skipWs r with
             | ':' :: r2 =>
               (match parseVal fuel r2 with
                | some (v, r3) =>
                  (match parseObjTail fuel r3 with
                   | some (fs, r4) => some ((k, v) :: fs, r4)
                   | none => none)
                | none => none)
             | _ => none)
          | none => none)
       | _ => none)
    | _ => none
end

/-- `json.loads`-style whole-document read: one value surrounded by
whitespace, nothing else. -/
def parseJson (s : String) : Option Value :=
  match parseVal (s.length + 1) s.data with
  | some (v, rest) => if skipWs rest = [] then some v else none
  | none => none

/-! ### A csv reader

Used to state what a `.csv`/`.tsv` file parses as: a sequence of complete
`"\r\n"`-terminated records of delimited fields, quoted fields following
the default dialect (`""` for an embedded quote). -/
/-- One unquoted field: characters up to the delimiter or the row
terminator; the returned flag is true when the field ended its row. -/
def csvPlain (d : Char) (acc : List Char) : List Char → Option (String × Bool × List Char)
  | [] => none
  | c :: cs =>
    if c = d then some (String.mk acc.reverse, false, cs)
    else if c = '\r' then
      match cs with
      | '\n' :: cs2 => some (String.mk acc.reverse, true, cs2)
      | _ => none
    else if c = '\n' then some (String.mk acc.reverse, true, cs)
    else if c = '"' then none
    else csvPlain d (c :: acc) cs

/-- A quoted field after its opening quote: `""` is an embedded quote;
after the closing quote the field must end at the delimiter or the row
terminator. -/
def csvQuoted (d : Char) (acc : List Char) : List Char → Option (String × Bool × List Char)
  | [] => none
  | '"' :: '"' :: cs => csvQuoted d ('"' :: acc) cs
  | '"' :: cs =>
    (match cs with
     | [] => none
     | c :: cs2 =>
       if c = d then some (String.mk acc.reverse, false, cs2)
       else if c = '\r' then
         match cs2 with
         | '\n' :: cs3 => some (String.mk acc.reverse, true, cs3)
         | _ => none
       else if c = '\n' then some (String.mk acc.reverse, true, cs2)
       else none)
  | c :: cs => csvQuoted d (c :: acc) cs

/-- One field, quoted or not. -/
def csvField (d : Char) (cs : List Char) : Option (String × Bool × List Char) :=
  match cs with
  | '"' :: rest => csvQuoted d [] rest
  | _ => csvPlain d [] cs

/-- The fields of one record; the fuel exceeds the input length, which
every field strictly consumes. -/
def csvRecord (d : Char) : Nat → List Char → Option (List String × List Char)
  | 0, _ => none
  | fuel + 1, cs =>
    match csvField d cs with
    | some (s, true, rest) => some ([s], rest)
    | some (s, false, rest) =>
      (match csvRecord d fuel rest with
       | some (ss, rest2) => some (s :: ss, rest2)
       | none => none)
    | none => none

/-- All records of the file. -/
def csvRecords (d : Char) : Nat → List Char → Option (List (List String))
  | 0, _ => none
  | fuel + 1, cs =>
    match cs with
    | [] => some []
    | _ =>
      match csvRecord d (cs.length + 1) cs with
      | some (ss, rest) =>
        (match csvRecords d fuel rest with
         | some rs => some (ss :: rs)
         | none => none)
      | none => none

/-- Parse a whole delimited-text file into its records. -/
def csvParse (d : Char) (s : String) : Option (List (List String)) :=
  csvRecords d (s.length + 1) s.data

/-! ### The RawRecord shape

Section 3 of the design: `first_name`/`last_name` are text and present;
`city`/`country` are absent or an object with a text `title`; `bdate` is
absent or text in one of the two recognized forms; `sex` is absent or an
integer code.  Batches handed to the core are sequences of such
records. -/
/-- A present text field. -/
def okName : Option Value → Bool
  | some (.vstr _) => true
  | _ => false

/-- An absent field, or an object with a text `title`. -/
def okNested : Option Value → Bool
  | none => true
  | some (.vobj cf) => okName (getKey cf "title")
  | _ => false

/-- An absent field, or date text that `bdate_to_iso` accepts. -/
def okBdate : Option Value → Bool
  | none => true
  | some (.vstr s) =>
    (match bdate_to_iso (.vstr s) with
     | .ok _ => true
     | .error _ => false)
  | _ => false

/-- An absent field, or an integer code. -/
def okSex : Option Value → Bool
  | none => true
  | some (.vint _) => true
  | _ => false

/-- One record of the RawRecord shape. -/
def shapedRecord : Value → Bool
  | .vobj fs =>
    okName (getKey fs "first_name") && okName (getKey fs "last_name") &&
    okNested (getKey fs "city") && okNested (getKey fs "country") &&
    okBdate (getKey fs "bdate") && okSex (getKey fs "sex")
  | _ => false

/-- A batch of RawRecord-shaped records. -/
def shapedBatch (items : List Value) : Bool := items.all shapedRecord

/-! ### The shape of writer-produced `.json` files

Under RawRecord-shaped input the only batches that survive `clean_data`
are the empty ones, so a `.json` file grown by `save_as_json` is, after
`n` successful calls, `"[\n  []\n"` followed by `n - 1` copies of
`" , []"` and a closing `"]"`. -/
/-- The characters of one `" , []"` splice. -/
def blockChars : List Char := [' ', ',', ' ', '[', ']']

/-- `k` splices. -/
def repChunk : Nat → List Char
  | 0 => []
  | k + 1 => repChunk k ++ blockChars

/-- The characters before the splices: `"[\n  []\n"`. -/
def preChars : List Char := ['[', '\n', ' ', ' ', '[', ']', '\n']

/-- The characters of the file after `k + 1` successful empty appends. -/
def fchars (k : Nat) : List Char := preChars ++ repChunk k ++ [']']

/-- The file after `k + 1` successful empty appends. -/
def fileK (k : Nat) : String := String.mk (fchars k)

/-! ### Reachable destination files and document validity -/
/-- The destination files producible for an extension: the bootstrap
content from `create_file` (empty for `.json`, a header row for the text
formats), grown by successful `save` calls on RawRecord-shaped batches. -/
inductive ReachDoc : String → String → Prop where
  | jsonInit : ReachDoc ".json" ""
  | csvInit : ReachDoc ".csv" (headerRow ',')
  | tsvInit : ReachDoc ".tsv" (headerRow '\t')
  | step (ext f : String) (items : List Value) (f2 : String) :
      ReachDoc ext f → shapedBatch items = true →
      save items ext f = (none, f2) → ReachDoc ext f2

/-- One complete, parseable document of the declared format: a single
JSON array for `.json`, a parseable nonempty delimited table for the text
formats. -/
def ValidDoc (ext f : String) : Prop :=
  if ext = ".json" then ∃ xs, parseJson f = some (.vlist xs)
  else ∃ d rows, sv_delimiters ext = some d ∧ csvParse d f = some rows ∧ rows ≠ []

/-! ### Concrete records used by the claim theorems -/
/-- The example record of the design document (section 8). -/
def annRecord : Value :=
  .vobj [("first_name", .vstr "Ann"), ("last_name", .vstr "Lee"), ("sex", .vint 1),
    ("bdate", .vstr "01.02.1995"), ("city", .vobj [("title", .vstr "Oslo")])]

/-- A RawRecord-shaped record with a nested country. -/
def bobRecord : Value :=
  .vobj [("first_name", .vstr "Bob"), ("last_name", .vstr "Ray"),
    ("country", .vobj [("title", .vstr "Norway")])]

/-- A RawRecord-shaped record with only a sex code. -/
def carolRecord : Value :=
  .vobj [("first_name", .vstr "Carol"), ("last_name", .vstr "Fox"), ("sex", .vint 2)]

/-- A RawRecord-shaped record with a day-month-only birthdate. -/
def daveRecord : Value :=
  .vobj [("first_name", .vstr "Dave"), ("last_name", .vstr "Poe"),
    ("bdate", .vstr "15.03")]

/-- A RawRecord-shaped record with only the two name fields. -/
def eveRecord : Value :=
  .vobj [("first_name", .vstr "Eve"), ("last_name", .vstr "Orr")]

/-- Whether the first record of a batch has a `country` key (used to
observe the in-place mutation done by the normalizer). -/
def headHasCountry : List Value → Bool
  | (.vobj fs) :: _ => hasKey fs "country"
  | _ => false

/-! ### Verified properties -/

example : subscr (.vobj [("title", .vstr "Oslo")]) "title" = .ok (.vstr "Oslo") := rfl

example : subscr .vnone "title" = .error .typeError := rfl

example : subscr (.vstr "Oslo") "title" = .error .typeError := rfl

example : setKey [("a", Value.vint 1)] "b" .vnone
    = [("a", Value.vint 1), ("b", Value.vnone)] := rfl

example : setKey [("a", Value.vint 1)] "a" .vnone = [("a", Value.vnone)] := rfl

example : bdate_to_iso (.vstr "15.03.1990") = .ok (.vstr "1990-03-15") := rfl

example : bdate_to_iso (.vstr "15.03") = .ok (.vstr "1900-03-15") := rfl

example : bdate_to_iso .vnone = .ok .vnone := rfl

example : bdate_to_iso (.vstr "2000") = .error .valueError := rfl

example : bdate_to_iso (.vstr "01.02.1995") = .ok (.vstr "1995-02-01") := rfl

example : bdate_to_iso (.vstr "29.02.2000") = .ok (.vstr "2000-02-29") := rfl

example : bdate_to_iso (.vstr "29.02") = .error .valueError := rfl

example : bdate_to_iso (.vstr "31.04.2000") = .error .valueError := rfl

example : bdate_to_iso (.vstr "1.2.1995") = .ok (.vstr "1995-02-01") := rfl

example : bdate_to_iso (.vstr "15.03.90") = .error .valueError := rfl

example : clean_data [] = (none, []) := rfl

example :
    fillGapsFriend (.vobj [("first_name", .vstr "Ann"), ("last_name", .vstr "Lee"),
      ("sex", .vint 1), ("bdate", .vstr "01.02.1995"),
      ("city", .vobj [("title", .vstr "Oslo")])])
    = (none, .vobj [("first_name", .vstr "Ann"), ("last_name", .vstr "Lee"),
      ("sex", .vstr "Female"), ("bdate", .vstr "1995-02-01"),
      ("city", .vstr "Oslo"), ("country", .vnone)]) := rfl

example :
    (clean_data [.vobj [("first_name", .vstr "Ann"), ("last_name", .vstr "Lee"),
      ("sex", .vint 1), ("bdate", .vstr "01.02.1995"),
      ("city", .vobj [("title", .vstr "Oslo")])]]).1 = some .typeError := rfl

example : dumps (.vlist []) = "[]" := rfl

example : dumps (.vlist [.vlist []]) = "[\n  []\n]" := rfl

example : dumps (.vlist [.vobj [("a", .vnone), ("b", .vstr "x\"y")]])
    = "[\n  \x7b\n    \"a\": null,\n    \"b\": \"x\\\"y\"\n  \x7d\n]" := rfl

example : dumps (.vstr "é") = "\"\\u00e9\"" := rfl

example : save_as_json [] "" = (none, "[\n  []\n]") := rfl

example : save_as_json [] "[\n  []\n]" = (none, "[\n  []\n , []]") := rfl

example : save_as_json [] "x" = (none, " , []]") := rfl

example : headerRow ',' = "First Name,Last Name,Country,City,Birthdate,Sex\r\n" := rfl

example : save_as_sv [] ".csv" (headerRow ',') = (none, headerRow ',') := by
  show (none, headerRow ',' ++ "") = (none, headerRow ',')
  rw [String.append_empty]

example : csvQuote ',' "a,b" = "\"a,b\"" := rfl

example : rowOut ',' ["a", "", "b\"c"] = "a,,\"b\"\"c\"\r\n" := rfl

example : parseJson "[]" = some (.vlist []) := rfl

example : parseJson "[\n  []\n]" = some (.vlist [.vlist []]) := rfl

example : parseJson "[\n  []\n , []]" = some (.vlist [.vlist [], .vlist []]) := rfl

example : parseJson " , []]" = none := rfl

example : parseJson "" = none := rfl

example : parseJson "[1, null, \"a\\\"b\", \x7b\"k\": [2]\x7d]"
    = some (.vlist [.vint 1, .vnone, .vstr "a\"b",
        .vobj [("k", .vlist [.vint 2])]]) := rfl

example : parseJson (dumps (.vlist [.vobj [("a", .vnone), ("b", .vstr "x\"y")]]))
    = some (.vlist [.vobj [("a", .vnone), ("b", .vstr "x\"y")]]) := rfl

example : csvParse ',' (headerRow ',')
    = some [["First Name", "Last Name", "Country", "City", "Birthdate", "Sex"]] := rfl

example : csvParse '\t' (headerRow '\t')
    = some [["First Name", "Last Name", "Country", "City", "Birthdate", "Sex"]] := rfl

example : csvParse ',' "a,\"b,c\"\r\nd,e\r\n" = some [["a", "b,c"], ["d", "e"]] := rfl

example : csvParse ',' "a,b" = none := rfl

theorem hasKey_eq_isSome (fs : List (String × Value)) (k : String) :
    hasKey fs k = (getKey fs k).isSome := by
  induction fs with
  | nil => rfl
  | cons p fs ih =>
    by_cases h : p.1 == k
    · simp [hasKey, getKey, List.any, List.find?, h]
    · simp only [hasKey, getKey, List.any, List.find?, h] at *
      simpa [hasKey, getKey] using ih

theorem getKey_eq_none_of_not_hasKey (fs : List (String × Value)) (k : String)
    (h : hasKey fs k = false) : getKey fs k = none := by
  have h2 := hasKey_eq_isSome fs k
  rw [h] at h2
  cases hg : getKey fs k with
  | none => rfl
  | some v => rw [hg] at h2; simp at h2

theorem find?_setMap_self (fs : List (String × Value)) (k : String) (v : Value) :
    List.find? (fun p => p.1 == k) (fs.map (fun p => if p.1 == k then (k, v) else p))
      = (List.find? (fun p => p.1 == k) fs).map (fun _ => (k, v)) := by
  induction fs with
  | nil => rfl
  | cons p fs ih =>
    by_cases hp : p.1 == k
    · simp [List.find?, hp]
    · simp only [List.map_cons, List.find?, hp, if_neg (by simpa using hp)]
      simpa [List.find?, hp] using ih

theorem find?_setMap_ne (fs : List (String × Value)) (k k2 : String) (v : Value)
    (h : k2 ≠ k) :
    List.find? (fun p => p.1 == k2) (fs.map (fun p => if p.1 == k then (k, v) else p))
      = List.find? (fun p => p.1 == k2) fs := by
  induction fs with
  | nil => rfl
  | cons p fs ih =>
    by_cases hp : p.1 == k
    · have hpk : p.1 = k := by simpa using hp
      have hne : ¬ (p.1 == k2) := by
        simp only [beq_iff_eq, hpk]
        exact fun hx => h hx.symm
      have hne2 : ¬ ((k, v).1 == k2) := by
        simp only [beq_iff_eq]
        exact fun hx => h hx.symm
      simp only [List.map_cons, if_pos hp, List.find?, hne, hne2]
      simpa using ih
    · by_cases hp2 : p.1 == k2
      · simp [List.find?, hp, hp2]
      · simp only [List.map_cons, if_neg hp, List.find?, hp2]
        simpa using ih

theorem getKey_setKey_self (fs : List (String × Value)) (k : String) (v : Value) :
    getKey (setKey fs k v) k = some v := by
  unfold setKey
  by_cases h : hasKey fs k
  · have h2 := hasKey_eq_isSome fs k
    rw [h] at h2
    cases hg : getKey fs k with
    | none => rw [hg] at h2; simp at h2
    | some w =>
      unfold getKey at hg ⊢
      simp only [h, if_true, find?_setMap_self]
      cases hf : List.find? (fun p => p.1 == k) fs with
      | none => rw [hf] at hg; simp at hg
      | some q => simp
  · rw [if_neg h]
    unfold getKey
    rw [List.find?_append]
    have h3 : List.find? (fun p => p.1 == k) fs = none := by
      cases hf : List.find? (fun p => p.1 == k) fs with
      | none => rfl
      | some q =>
        have : getKey fs k = some q.2 := by unfold getKey; rw [hf]; rfl
        rw [getKey_eq_none_of_not_hasKey fs k (by simpa using h)] at this
        simp at this
    rw [h3]
    simp [List.find?]

theorem getKey_setKey_ne (fs : List (String × Value)) (k k2 : String) (v : Value)
    (h : k2 ≠ k) : getKey (setKey fs k v) k2 = getKey fs k2 := by
  unfold setKey
  by_cases hk : hasKey fs k
  · simp only [hk, if_true]
    unfold getKey
    rw [find?_setMap_ne fs k k2 v h]
  · rw [if_neg hk]
    unfold getKey
    rw [List.find?_append]
    have hne : ((k, v).1 == k2) = false := by
      simp only [beq_eq_false_iff_ne, ne_eq]
      exact fun hx => h hx.symm
    cases hf : List.find? (fun p => p.1 == k2) fs with
    | none => simp [List.find?, hne]
    | some q => simp

theorem fieldTitleStep_ok (fs : List (String × Value)) (k : String)
    (h : okNested (getKey fs k) = true) :
    ∃ fs2, fieldTitleStep fs k = .ok fs2 ∧
      (getKey fs2 k = some .vnone ∨ ∃ t, getKey fs2 k = some (.vstr t)) ∧
      (∀ k2, k2 ≠ k → getKey fs2 k2 = getKey fs k2) := by
  unfold fieldTitleStep
  cases hg : getKey fs k with
  | none =>
    have hk : hasKey fs k = false := by rw [hasKey_eq_isSome, hg]; rfl
    rw [if_neg (by simp [hk])]
    exact ⟨_, rfl, Or.inl (getKey_setKey_self fs k .vnone),
      fun k2 hne => getKey_setKey_ne fs k k2 _ hne⟩
  | some v =>
    have hk : hasKey fs k = true := by rw [hasKey_eq_isSome, hg]; rfl
    rw [hg] at h
    rw [if_pos hk]
    cases v with
    | vobj cf =>
      simp only [okNested] at h
      cases ht : getKey cf "title" with
      | none => rw [ht] at h; exact Bool.noConfusion h
      | some w =>
        rw [ht] at h
        cases w with
        | vstr t =>
          refine ⟨setKey fs k (.vstr t), ?_, Or.inr ⟨t, getKey_setKey_self fs k _⟩,
            fun k2 hne => getKey_setKey_ne fs k k2 _ hne⟩
          simp [subscr, ht, Except.map]
        | vnone => simp [okName] at h
        | vint n => simp [okName] at h
        | vlist xs => simp [okName] at h
        | vobj fs3 => simp [okName] at h
    | vnone => simp [okNested] at h
    | vstr s => simp [okNested] at h
    | vint n => simp [okNested] at h
    | vlist xs => simp [okNested] at h

theorem bdateStep_ok (fs : List (String × Value))
    (h : okBdate (getKey fs "bdate") = true) :
    ∃ fs2, bdateStep fs = .ok fs2 ∧
      (∀ k2, k2 ≠ "bdate" → getKey fs2 k2 = getKey fs k2) := by
  unfold bdateStep
  cases hg : getKey fs "bdate" with
  | none =>
    have hk : hasKey fs "bdate" = false := by rw [hasKey_eq_isSome, hg]; rfl
    rw [if_neg (by simp [hk])]
    exact ⟨_, rfl, fun k2 hne => getKey_setKey_ne fs _ k2 _ hne⟩
  | some v =>
    have hk : hasKey fs "bdate" = true := by rw [hasKey_eq_isSome, hg]; rfl
    rw [hg] at h
    rw [if_pos hk]
    cases v with
    | vstr s =>
      simp only [okBdate] at h
      cases hb : bdate_to_iso (.vstr s) with
      | ok w =>
        refine ⟨setKey fs "bdate" w, ?_, fun k2 hne => getKey_setKey_ne fs _ k2 _ hne⟩
        simp [hb, Except.map]
      | error e => rw [hb] at h; simp at h
    | vnone => simp [okBdate] at h
    | vint n => simp [okBdate] at h
    | vlist xs => simp [okBdate] at h
    | vobj fs3 => simp [okBdate] at h

theorem sexStep_preserves (fs : List (String × Value)) (k2 : String)
    (h : k2 ≠ "sex") : getKey (sexStep fs) k2 = getKey fs k2 := by
  unfold sexStep
  by_cases hk : hasKey fs "sex"
  · rw [if_pos hk]
    cases hg : getKey fs "sex" with
    | none => rfl
    | some v =>
      cases v with
      | vint n =>
        cases n with
        | ofNat m =>
          cases m with
          | zero => exact getKey_setKey_ne fs _ k2 _ h
          | succ m2 =>
            cases m2 with
            | zero => exact getKey_setKey_ne fs _ k2 _ h
            | succ m3 => exact getKey_setKey_ne fs _ k2 _ h
        | negSucc m => exact getKey_setKey_ne fs _ k2 _ h
      | vnone => exact getKey_setKey_ne fs _ k2 _ h
      | vstr s => exact getKey_setKey_ne fs _ k2 _ h
      | vlist xs => exact getKey_setKey_ne fs _ k2 _ h
      | vobj fs3 => exact getKey_setKey_ne fs _ k2 _ h
  · rw [if_neg hk]
    exact getKey_setKey_ne fs _ k2 _ h

theorem okName_exists (o : Option Value) (h : okName o = true) :
    ∃ t, o = some (.vstr t) := by
  cases o with
  | none => exact Bool.noConfusion h
  | some v =>
    cases v with
    | vstr t => exact ⟨t, rfl⟩
    | vnone => exact Bool.noConfusion h
    | vint n => exact Bool.noConfusion h
    | vlist xs => exact Bool.noConfusion h
    | vobj fs => exact Bool.noConfusion h

theorem fillGapsFriend_shaped (fs : List (String × Value))
    (h : shapedRecord (.vobj fs) = true) :
    ∃ fs4, fillGapsFriend (.vobj fs) = (none, .vobj fs4) ∧
      (∃ t, getKey fs4 "first_name" = some (.vstr t)) ∧
      (∃ t, getKey fs4 "last_name" = some (.vstr t)) ∧
      (getKey fs4 "country" = some .vnone ∨ ∃ t, getKey fs4 "country" = some (.vstr t)) := by
  simp only [shapedRecord, Bool.and_eq_true] at h
  obtain ⟨⟨⟨⟨⟨h1, h2⟩, h3⟩, h4⟩, h5⟩, h6⟩ := h
  obtain ⟨fs1, e1, _, pres1⟩ := fieldTitleStep_ok fs "city" h3
  have h4b : okNested (getKey fs1 "country") = true := by
    rw [pres1 "country" (by decide)]
    exact h4
  obtain ⟨fs2, e2, cty2, pres2⟩ := fieldTitleStep_ok fs1 "country" h4b
  have h5b : okBdate (getKey fs2 "bdate") = true := by
    rw [pres2 "bdate" (by decide), pres1 "bdate" (by decide)]
    exact h5
  obtain ⟨fs3, e3, pres3⟩ := bdateStep_ok fs2 h5b
  refine ⟨sexStep fs3, ?_, ?_, ?_, ?_⟩
  · simp only [fillGapsFriend, e1, e2, e3]
  · obtain ⟨t, ht⟩ := okName_exists _ h1
    refine ⟨t, ?_⟩
    rw [sexStep_preserves fs3 _ (by decide), pres3 _ (by decide),
      pres2 _ (by decide), pres1 _ (by decide)]
    exact ht
  · obtain ⟨t, ht⟩ := okName_exists _ h2
    refine ⟨t, ?_⟩
    rw [sexStep_preserves fs3 _ (by decide), pres3 _ (by decide),
      pres2 _ (by decide), pres1 _ (by decide)]
    exact ht
  · have hc : getKey (sexStep fs3) "country" = getKey fs2 "country" := by
      rw [sexStep_preserves fs3 _ (by decide), pres3 _ (by decide)]
    rw [hc]
    exact cty2

theorem except_bind_ok (x : Value) (f : Value → Except PyErr Value) :
    (Except.ok x >>= f : Except PyErr Value) = f x := rfl

theorem except_bind_err (e : PyErr) (f : Value → Except PyErr Value) :
    (Except.error e >>= f : Except PyErr Value) = Except.error e := rfl

theorem cleanFriend_country_err (fs4 : List (String × Value))
    (h1 : ∃ t, getKey fs4 "first_name" = some (.vstr t))
    (h2 : ∃ t, getKey fs4 "last_name" = some (.vstr t))
    (h3 : getKey fs4 "country" = some .vnone ∨ ∃ t, getKey fs4 "country" = some (.vstr t)) :
    cleanFriend (.vobj fs4) = .error .typeError := by
  obtain ⟨fn, hfn⟩ := h1
  obtain ⟨ln2, hln⟩ := h2
  have hck : hasKey fs4 "country" = true := by
    rw [hasKey_eq_isSome]
    rcases h3 with hc | ⟨t, hc⟩ <;> rw [hc] <;> rfl
  unfold cleanFriend condTitle
  rcases h3 with hc | ⟨t, hc⟩ <;>
    simp [subscr, hfn, hln, hc, hck, except_bind_ok, except_bind_err]

theorem fill_gaps_ok_of_shaped (items : List Value) (h : shapedBatch items = true) :
    ∃ items2, fill_gaps items = (none, items2) := by
  induction items with
  | nil => exact ⟨[], rfl⟩
  | cons r rest ih =>
    rw [shapedBatch, List.all_cons, Bool.and_eq_true] at h
    obtain ⟨hr, hrest⟩ := h
    obtain ⟨rest2, hr2⟩ := ih hrest
    cases r with
    | vobj fs =>
      obtain ⟨fs4, e1, _, _, _⟩ := fillGapsFriend_shaped fs hr
      refine ⟨.vobj fs4 :: rest2, ?_⟩
      unfold fill_gaps
      rw [e1, hr2]
    | vnone => exact Bool.noConfusion hr
    | vstr s => exact Bool.noConfusion hr
    | vint n => exact Bool.noConfusion hr
    | vlist xs => exact Bool.noConfusion hr

theorem clean_data_shaped_cons (r : Value) (rest : List Value)
    (h : shapedBatch (r :: rest) = true) :
    ∃ fs4 rest2, clean_data (r :: rest) = (some .typeError, .vobj fs4 :: rest2) ∧
      (getKey fs4 "country" = some .vnone ∨ ∃ t, getKey fs4 "country" = some (.vstr t)) ∧
      fill_gaps rest = (none, rest2) := by
  have h2 := h
  rw [shapedBatch, List.all_cons, Bool.and_eq_true] at h2
  obtain ⟨hr, hrest⟩ := h2
  obtain ⟨rest2, hfr⟩ := fill_gaps_ok_of_shaped rest hrest
  cases r with
  | vobj fs =>
    obtain ⟨fs4, e1, hfn, hln, hco⟩ := fillGapsFriend_shaped fs hr
    refine ⟨fs4, rest2, ?_, hco, hfr⟩
    unfold clean_data
    have hfill : fill_gaps (Value.vobj fs :: rest) = (none, .vobj fs4 :: rest2) := by
      unfold fill_gaps
      rw [e1, hfr]
    rw [hfill]
    unfold cleanLoop
    rw [cleanFriend_country_err fs4 hfn hln hco]
  | vnone => exact Bool.noConfusion hr
  | vstr s => exact Bool.noConfusion hr
  | vint n => exact Bool.noConfusion hr
  | vlist xs => exact Bool.noConfusion hr

theorem repChunk_succ_front (k : Nat) : repChunk (k + 1) = blockChars ++ repChunk k := by
  induction k with
  | zero => rfl
  | succ k ih =>
    show repChunk (k + 1) ++ blockChars = blockChars ++ (repChunk k ++ blockChars)
    rw [ih, List.append_assoc]

theorem repChunk_length (k : Nat) : (repChunk k).length = 5 * k := by
  induction k with
  | zero => rfl
  | succ k ih =>
    show (repChunk k ++ blockChars).length = 5 * (k + 1)
    rw [List.length_append, ih]
    rfl

theorem fileK_length (k : Nat) : (fileK k).length = 5 * k + 8 := by
  show (preChars ++ repChunk k ++ [']']).length = 5 * k + 8
  rw [List.length_append, List.length_append, repChunk_length]
  have h1 : preChars.length = 7 := rfl
  have h2 : ([']'] : List Char).length = 1 := rfl
  rw [h1, h2]
  omega

theorem parseListTail_chunks :
    ∀ k fuel, 2 * k + 1 ≤ fuel →
    parseListTail fuel (repChunk k ++ [']'])
      = some (List.replicate k (Value.vlist []), []) := by
  intro k
  induction k with
  | zero =>
    intro fuel hf
    cases fuel with
    | zero => omega
    | succ f => rfl
  | succ k ih =>
    intro fuel hf
    cases fuel with
    | zero => omega
    | succ f =>
      cases f with
      | zero => omega
      | succ g =>
        have hcs : repChunk (k + 1) ++ [']']
            = ' ' :: ',' :: ' ' :: '[' :: ']' :: (repChunk k ++ [']']) := by
          rw [repChunk_succ_front, List.append_assoc]
          rfl
        rw [hcs]
        have hstep : parseListTail (g + 1 + 1)
              (' ' :: ',' :: ' ' :: '[' :: ']' :: (repChunk k ++ [']']))
            = (match parseListTail (g + 1) (repChunk k ++ [']']) with
               | some (vs, r2) => some (Value.vlist [] :: vs, r2)
               | none => none) := rfl
        rw [hstep, ih (g + 1) (by omega)]
        rfl

theorem parseVal_fileK (k m : Nat) (hm : 2 * k + 1 ≤ m) :
    parseVal (m + 2) (fchars k)
      = some (.vlist (List.replicate (k + 1) (.vlist [])), []) := by
  have hmain : parseVal (m + 2) (fchars k)
      = (match parseListTail (m + 1) (repChunk k ++ [']']) with
         | some (vs, r2) => some (Value.vlist (Value.vlist [] :: vs), r2)
         | none => none) := rfl
  rw [hmain, parseListTail_chunks k (m + 1) (by omega)]
  rfl

theorem parseJson_fileK (k : Nat) :
    parseJson (fileK k) = some (.vlist (List.replicate (k + 1) (.vlist []))) := by
  unfold parseJson
  have h1 : (fileK k).length + 1 = (5 * k + 7) + 2 := by rw [fileK_length]
  have hd : (fileK k).data = fchars k := rfl
  rw [h1, hd, parseVal_fileK k (5 * k + 7) (by omega)]
  rfl

theorem save_as_json_empty_start : save_as_json [] "" = (none, fileK 0) := rfl

theorem save_as_json_fileK_step (k : Nat) :
    save_as_json [] (fileK k) = (none, fileK (k + 1)) := by
  have h0 : ¬ (fileK k).length = 0 := by rw [fileK_length]; omega
  show (if (fileK k).length = 0 then (none, dumps (.vlist [.vlist []]))
        else (none, String.mk (fileK k).data.dropLast ++ " , " ++ dumps (.vlist []) ++ "]"))
      = ((none : Option PyErr), fileK (k + 1))
  rw [if_neg h0]
  have hdrop : (fchars k).dropLast = preChars ++ repChunk k := by
    show (preChars ++ repChunk k ++ [']']).dropLast = preChars ++ repChunk k
    exact List.dropLast_concat
  have hlist : (((fchars k).dropLast ++ [' ', ',', ' ']) ++ ['[', ']']) ++ [']']
      = preChars ++ repChunk (k + 1) ++ [']'] := by
    rw [hdrop]
    show ((preChars ++ repChunk k ++ [' ', ',', ' ']) ++ ['[', ']']) ++ [']']
        = preChars ++ (repChunk k ++ blockChars) ++ [']']
    simp [blockChars, List.append_assoc]
  show ((none : Option PyErr),
      String.mk ((((fchars k).dropLast ++ [' ', ',', ' ']) ++ ['[', ']']) ++ [']']))
    = ((none : Option PyErr), String.mk (preChars ++ repChunk (k + 1) ++ [']']))
  rw [hlist]

theorem save_as_json_fst_none (items : List Value) (f : String)
    (h : (save_as_json items f).1 = none) : (clean_data items).1 = none := by
  unfold save_as_json at h
  cases hc : clean_data items with
  | mk e items2 =>
    cases e with
    | none => rfl
    | some e2 => rw [hc] at h; exact Option.noConfusion h

theorem save_as_sv_fst_none (items : List Value) (ext f : String) (d : Char)
    (hd : sv_delimiters ext = some d)
    (h : (save_as_sv items ext f).1 = none) : (clean_data items).1 = none := by
  unfold save_as_sv at h
  rw [hd] at h
  cases hc : clean_data items with
  | mk e items2 =>
    cases e with
    | none => rfl
    | some e2 => rw [hc] at h; exact Option.noConfusion h

theorem clean_ok_items_nil (items : List Value) (hs : shapedBatch items = true)
    (h : (clean_data items).1 = none) : items = [] := by
  cases items with
  | nil => rfl
  | cons r rest =>
    obtain ⟨fs4, rest2, hcd, _, _⟩ := clean_data_shaped_cons r rest hs
    rw [hcd] at h
    exact Option.noConfusion h

theorem reachDoc_cases (ext f : String) (h : ReachDoc ext f) :
    (ext = ".json" ∧ (f = "" ∨ ∃ k, f = fileK k)) ∨
    (ext = ".csv" ∧ f = headerRow ',') ∨
    (ext = ".tsv" ∧ f = headerRow '\t') := by
  induction h with
  | jsonInit => exact Or.inl ⟨rfl, Or.inl rfl⟩
  | csvInit => exact Or.inr (Or.inl ⟨rfl, rfl⟩)
  | tsvInit => exact Or.inr (Or.inr ⟨rfl, rfl⟩)
  | step ext f items f2 hr hs hsave ih =>
    rcases ih with ⟨hext, hf⟩ | ⟨hext, hf⟩ | ⟨hext, hf⟩
    · subst hext
      have hjs : save items ".json" f = save_as_json items f := rfl
      rw [hjs] at hsave
      have hnil : items = [] := clean_ok_items_nil items hs
        (save_as_json_fst_none items f (by rw [hsave]))
      subst hnil
      refine Or.inl ⟨rfl, Or.inr ?_⟩
      rcases hf with rfl | ⟨k, rfl⟩
      · rw [save_as_json_empty_start] at hsave
        exact ⟨0, (Prod.mk.injEq _ _ _ _).mp hsave |>.2.symm⟩
      · rw [save_as_json_fileK_step] at hsave
        exact ⟨k + 1, (Prod.mk.injEq _ _ _ _).mp hsave |>.2.symm⟩
    · subst hext
      subst hf
      have hsv : save items ".csv" (headerRow ',')
          = save_as_sv items ".csv" (headerRow ',') := rfl
      rw [hsv] at hsave
      have hnil : items = [] := clean_ok_items_nil items hs
        (save_as_sv_fst_none items ".csv" (headerRow ',') ',' rfl (by rw [hsave]))
      subst hnil
      have heq : save_as_sv [] ".csv" (headerRow ',') = (none, headerRow ',') := by
        show (none, headerRow ',' ++ "") = ((none : Option PyErr), headerRow ',')
        rw [String.append_empty]
      rw [heq] at hsave
      exact Or.inr (Or.inl ⟨rfl, ((Prod.mk.injEq _ _ _ _).mp hsave).2.symm⟩)
    · subst hext
      subst hf
      have hsv : save items ".tsv" (headerRow '\t')
          = save_as_sv items ".tsv" (headerRow '\t') := rfl
      rw [hsv] at hsave
      have hnil : items = [] := clean_ok_items_nil items hs
        (save_as_sv_fst_none items ".tsv" (headerRow '\t') '\t' rfl (by rw [hsave]))
      subst hnil
      have heq : save_as_sv [] ".tsv" (headerRow '\t') = (none, headerRow '\t') := by
        show (none, headerRow '\t' ++ "") = ((none : Option PyErr), headerRow '\t')
        rw [String.append_empty]
      rw [heq] at hsave
      exact Or.inr (Or.inr ⟨rfl, ((Prod.mk.injEq _ _ _ _).mp hsave).2.symm⟩)

theorem validDoc_fileK (k : Nat) : ValidDoc ".json" (fileK k) := by
  unfold ValidDoc
  rw [if_pos rfl]
  exact ⟨List.replicate (k + 1) (.vlist []), parseJson_fileK k⟩

theorem validDoc_headerCsv : ValidDoc ".csv" (headerRow ',') := by
  unfold ValidDoc
  rw [if_neg (by decide)]
  refine ⟨',', [["First Name", "Last Name", "Country", "City", "Birthdate", "Sex"]],
    rfl, rfl, ?_⟩
  exact List.cons_ne_nil _ _

theorem validDoc_headerTsv : ValidDoc ".tsv" (headerRow '\t') := by
  unfold ValidDoc
  rw [if_neg (by decide)]
  refine ⟨'\t', [["First Name", "Last Name", "Country", "City", "Birthdate", "Sex"]],
    rfl, rfl, ?_⟩
  exact List.cons_ne_nil _ _

theorem reachDoc_valid (ext f : String) (h : ReachDoc ext f) (hne : f ≠ "") :
    ValidDoc ext f := by
  rcases reachDoc_cases ext f h with ⟨hext, hf⟩ | ⟨hext, hf⟩ | ⟨hext, hf⟩
  · subst hext
    rcases hf with rfl | ⟨k, rfl⟩
    · exact absurd rfl hne
    · exact validDoc_fileK k
  · subst hext; subst hf; exact validDoc_headerCsv
  · subst hext; subst hf; exact validDoc_headerTsv

theorem save_step_result (ext f : String) (items : List Value) (f2 : String)
    (hr : ReachDoc ext f) (hs : shapedBatch items = true)
    (hsave : save items ext f = (none, f2)) :
    (ext = ".json" ∧ ∃ k, f2 = fileK k) ∨
    (ext = ".csv" ∧ f2 = headerRow ',') ∨
    (ext = ".tsv" ∧ f2 = headerRow '\t') := by
  have h2 : ReachDoc ext f2 := ReachDoc.step ext f items f2 hr hs hsave
  rcases reachDoc_cases ext f2 h2 with ⟨hext, hf⟩ | hrest
  · subst hext
    rcases hf with rfl | hk
    · -- a successful `.json` call cannot leave the file empty
      exfalso
      have hjs : save items ".json" f = save_as_json items f := rfl
      rw [hjs] at hsave
      have hnil : items = [] := clean_ok_items_nil items hs
        (save_as_json_fst_none items f (by rw [hsave]))
      subst hnil
      rcases reachDoc_cases ".json" f hr with ⟨_, hf0⟩ | ⟨hbad, _⟩ | ⟨hbad, _⟩
      · rcases hf0 with rfl | ⟨k, rfl⟩
        · rw [save_as_json_empty_start] at hsave
          have h3 := ((Prod.mk.injEq _ _ _ _).mp hsave).2
          have h4 : (fileK 0).length = ("" : String).length := by rw [h3]
          rw [fileK_length] at h4
          simp [String.length] at h4
        · rw [save_as_json_fileK_step] at hsave
          have h3 := ((Prod.mk.injEq _ _ _ _).mp hsave).2
          have h4 : (fileK (k + 1)).length = ("" : String).length := by rw [h3]
          rw [fileK_length] at h4
          simp [String.length] at h4
      · exact String.noConfusion (hbad : (".json" : String) = ".csv")
          (fun hdata => by exact absurd hdata (by decide))
      · exact String.noConfusion (hbad : (".json" : String) = ".tsv")
          (fun hdata => by exact absurd hdata (by decide))
    · exact Or.inl ⟨rfl, hk⟩
  · exact Or.inr hrest

/-! ### The claims -/
/-- C1, counterexample: starting from an empty `.json` file, appending
batch A then batch B with A = B = [] yields a file that does NOT parse as
the JSON array `A ++ B = []`; the writer nests each call's batch as one
array element instead. -/
theorem claim_C1_counterexample :
    parseJson ((save_as_json [] ((save_as_json [] "").2)).2) ≠ some (.vlist ([] ++ [])) := by
  intro h
  have h2 : parseJson ((save_as_json [] ((save_as_json [] "").2)).2)
      = some (.vlist [.vlist [], .vlist []]) := rfl
  rw [h2] at h
  injection h with h3
  injection h3 with h4
  exact List.noConfusion h4

/-- C1, amended: starting from an empty `.json` file, two writer calls
that return normally on RawRecord-shaped batches A then B leave a file
that parses as the two-element array `[A, B]` of per-call batch arrays
(with the current normalizer only empty batches complete), not as the
flat concatenation `A ++ B`. -/
theorem claim_C1_amended_nested (a b : List Value) (f1 f2 : String)
    (ha : shapedBatch a = true) (hb : shapedBatch b = true)
    (h1 : save_as_json a "" = (none, f1)) (h2 : save_as_json b f1 = (none, f2)) :
    parseJson f2 = some (.vlist [.vlist a, .vlist b]) := by
  have hna : a = [] := clean_ok_items_nil a ha (save_as_json_fst_none a "" (by rw [h1]))
  have hnb : b = [] := clean_ok_items_nil b hb (save_as_json_fst_none b f1 (by rw [h2]))
  subst hna
  subst hnb
  rw [save_as_json_empty_start] at h1
  have hf1 : f1 = fileK 0 := ((Prod.mk.injEq _ _ _ _).mp h1).2.symm
  subst hf1
  rw [save_as_json_fileK_step 0] at h2
  have hf2 : f2 = fileK 1 := ((Prod.mk.injEq _ _ _ _).mp h2).2.symm
  subst hf2
  rw [parseJson_fileK 1]
  rfl

/-- C1, witness for the amended statement at A = B = []. -/
theorem claim_C1_amended_witness :
    shapedBatch [] = true ∧ save_as_json [] "" = (none, fileK 0) ∧
    save_as_json [] (fileK 0) = (none, fileK 1) ∧
    parseJson (fileK 1) = some (.vlist [.vlist [], .vlist []]) :=
  ⟨rfl, rfl, rfl, claim_C1_amended_nested [] [] (fileK 0) (fileK 1) rfl rfl rfl rfl⟩

/-- C2: on the RawRecord-shaped example record of the design document the
normalizer does not return a canonical record at all: `clean_data`
re-subscripts the already-extracted `country`/`city` values with
`["title"]` and raises `TypeError`, instead of producing the verbatim
title / null fields the claim describes. -/
theorem claim_C2_code_bug_eval :
    shapedRecord annRecord = true ∧ (clean_data [annRecord]).1 = some PyErr.typeError :=
  ⟨rfl, rfl⟩

/-- C3: for the day-month-only input `"15.03"` the code returns
`"1900-03-15"` (the `strptime` default year), not the placeholder form
`"XXXX-03-15"` that the claim and the function docstring state. -/
theorem claim_C3_code_bug_eval :
    bdate_to_iso (.vstr "15.03") = .ok (.vstr "1900-03-15") ∧
    ("1900-03-15" : String) ≠ "XXXX-03-15" :=
  ⟨rfl, by decide⟩

/-- C4: on a RawRecord-shaped one-record batch normalization does not
return a batch of the same length -- it raises `TypeError`, so no batch is
returned at all. -/
theorem claim_C4_code_bug_eval :
    shapedBatch [bobRecord] = true ∧ (clean_data [bobRecord]).1 = some PyErr.typeError :=
  ⟨rfl, rfl⟩

/-- C5: after every writer call that returns normally on a RawRecord-shaped
batch, starting from a file previously produced by this writer (or the
bootstrap content: empty for `.json`, header-only for `.csv`/`.tsv`), the
destination file is one complete parseable document of its format. -/
theorem claim_C5_complete_document (ext f : String) (items : List Value) (f2 : String)
    (hr : ReachDoc ext f) (hs : shapedBatch items = true)
    (hsave : save items ext f = (none, f2)) : ValidDoc ext f2 := by
  rcases save_step_result ext f items f2 hr hs hsave with
    ⟨hext, k, rfl⟩ | ⟨hext, rfl⟩ | ⟨hext, rfl⟩
  · subst hext
    exact validDoc_fileK k
  · subst hext
    exact validDoc_headerCsv
  · subst hext
    exact validDoc_headerTsv

/-- C5, witness: the first `.json` call on the empty file leaves a valid
document. -/
theorem claim_C5_witness : ValidDoc ".json" (fileK 0) :=
  claim_C5_complete_document ".json" "" [] (fileK 0) ReachDoc.jsonInit rfl rfl

/-- C6, counterexample: called on the non-empty file `"x"` whose last
byte is not `]`, the JSON writer does not surface an error -- it returns
normally after blindly truncating the last byte and splicing the batch. -/
theorem claim_C6_counterexample :
    save_as_json [] "x" = (none, " , []]") := rfl

/-- C6, amended: the JSON writer never checks the tail byte: on any
non-empty file, a call whose normalization succeeds truncates exactly the
final byte and splices `' , '`, the dump of the cleaned batch and `']'`,
whatever the final byte was; no error is raised and no repair attempted. -/
theorem claim_C6_amended_blind_splice (f : String) (items items2 : List Value)
    (hne : f ≠ "") (hc : clean_data items = (none, items2)) :
    save_as_json items f
      = (none, String.mk f.data.dropLast ++ " , " ++ dumps (.vlist items2) ++ "]") := by
  unfold save_as_json
  rw [hc]
  have hlen : ¬ f.length = 0 := by
    intro h0
    apply hne
    cases f with
    | mk l =>
      cases l with
      | nil => rfl
      | cons c cs => exact absurd h0 (Nat.succ_ne_zero _)
  show (if f.length = 0 then ((none : Option PyErr), dumps (.vlist [.vlist items2]))
        else (none, String.mk f.data.dropLast ++ " , " ++ dumps (.vlist items2) ++ "]"))
      = (none, String.mk f.data.dropLast ++ " , " ++ dumps (.vlist items2) ++ "]")
  rw [if_neg hlen]

/-- C6, witness for the amended statement at file `"x"` and an empty
batch. -/
theorem claim_C6_amended_witness :
    save_as_json [] "x"
      = (none, String.mk ("x" : String).data.dropLast ++ " , " ++ dumps (.vlist []) ++ "]") :=
  claim_C6_amended_blind_splice "x" [] [] (by decide) rfl

/-- C7: the date conversion keeps absent and malformed distinct: a `None`
birthdate passes through as `None`, while a string that matches neither
the `%d.%m.%Y` pattern nor the `%d.%m` pattern raises `ValueError` rather
than returning `None`. -/
theorem claim_C7_absent_vs_malformed :
    bdate_to_iso .vnone = .ok .vnone ∧
    ∀ s : String, patDMY s = false → patDM s = false →
      bdate_to_iso (.vstr s) = .error .valueError := by
  refine ⟨rfl, fun s h1 h2 => ?_⟩
  have hd : strptimeDMY s = none := by
    unfold strptimeDMY
    unfold patDMY at h1
    cases hm : matchDMY s.data with
    | none => rfl
    | some q =>
      obtain ⟨d, m, y, rest⟩ := q
      rw [hm] at h1
      cases rest with
      | nil => exact Bool.noConfusion h1
      | cons c cs => simp
  have hm2 : strptimeDM s = none := by
    unfold strptimeDM
    unfold patDM at h2
    cases hm : matchDM s.data with
    | none => rfl
    | some q =>
      obtain ⟨d, m, rest⟩ := q
      rw [hm] at h2
      cases rest with
      | nil => exact Bool.noConfusion h2
      | cons c cs => simp
  simp only [bdate_to_iso, hd, hm2]

/-- C7, witness at the input `"2000"` from the design document. -/
theorem claim_C7_witness :
    patDMY "2000" = false ∧ patDM "2000" = false ∧
      bdate_to_iso (.vstr "2000") = .error .valueError :=
  ⟨rfl, rfl, claim_C7_absent_vs_malformed.2 "2000" rfl rfl⟩

/-- C8, counterexample: the normalizer is not pure in its argument: after
`clean_data` runs on a batch holding one record with only the two name
fields, the caller's batch has been rewritten in place (the record now
carries a `country` key), so it no longer equals the original batch. -/
theorem claim_C8_counterexample : (clean_data [eveRecord]).2 ≠ [eveRecord] := by
  intro h
  have h2 : headHasCountry ((clean_data [eveRecord]).2) = headHasCountry [eveRecord] := by
    rw [h]
  have h3 : headHasCountry ((clean_data [eveRecord]).2) = true := rfl
  have h4 : headHasCountry [eveRecord] = false := rfl
  rw [h3, h4] at h2
  exact Bool.noConfusion h2

/-- C8, amended: normalization mutates the caller's batch in place: for
every nonempty RawRecord-shaped batch, when `clean_data` finishes the
caller's list differs from the original (records were rewritten by
`fill_gaps` before the `TypeError` escaped). -/
theorem claim_C8_amended_mutates (items : List Value) (hs : shapedBatch items = true)
    (hne : items ≠ []) : (clean_data items).2 ≠ items := by
  cases items with
  | nil => exact absurd rfl hne
  | cons r rest =>
    obtain ⟨fs4, rest2, hcd, hco, _⟩ := clean_data_shaped_cons r rest hs
    rw [hcd]
    intro heq
    have hhead : Value.vobj fs4 = r := ((List.cons.injEq _ _ _ _).mp heq).1
    have hs2 := hs
    rw [shapedBatch, List.all_cons, Bool.and_eq_true] at hs2
    obtain ⟨hr, _⟩ := hs2
    rw [← hhead] at hr
    simp only [shapedRecord, Bool.and_eq_true] at hr
    obtain ⟨⟨⟨⟨⟨_, _⟩, _⟩, hcountry⟩, _⟩, _⟩ := hr
    rcases hco with hc | ⟨t, hc⟩
    · rw [hc] at hcountry
      exact Bool.noConfusion hcountry
    · rw [hc] at hcountry
      exact Bool.noConfusion hcountry

/-- C8, witness for the amended statement at a one-record batch. -/
theorem claim_C8_amended_witness :
    shapedBatch [eveRecord] = true ∧ (clean_data [eveRecord]).2 ≠ [eveRecord] :=
  ⟨rfl, claim_C8_amended_mutates [eveRecord] rfl (List.cons_ne_nil _ _)⟩

/-- C9: on a RawRecord-shaped one-record batch the delimited-text writer
appends no row at all: `clean_data` raises `TypeError` before the row
loop, the exception escapes, and the file keeps exactly its previous
bytes instead of gaining one six-field row. -/
theorem claim_C9_code_bug_eval :
    shapedBatch [carolRecord] = true ∧
    save_as_sv [carolRecord] ".csv" (headerRow ',')
      = (some PyErr.typeError, headerRow ',') :=
  ⟨rfl, rfl⟩

/-- C10: on a RawRecord-shaped one-record batch the JSON writer adds no
per-call batch element: `clean_data` raises `TypeError` before the file
is touched, so after the call the empty file is still empty instead of
holding a one-element array of the batch. -/
theorem claim_C10_code_bug_eval :
    shapedBatch [daveRecord] = true ∧
    save_as_json [daveRecord] "" = (some PyErr.typeError, "") :=
  ⟨rfl, rfl⟩
